import Mathlib

/-!
Verification development for the Jeff/NaviGrad chat backend (`server.js` and
its two later revisions).  JavaScript strings are modelled as `List Char`;
JavaScript runtime values as the inductive `JSValue`; fallible JS operations
(property access on `null`/`undefined`, `JSON.parse`) return `Except`/`Option`.
External collaborators (the generative-model service, the web-fetch transport,
`JSON.parse`, `JSON.stringify`) are passed in as function parameters, exactly
as the specification designates them opaque; everything else is translated
directly from the source.
-/

namespace Jeff

/-- Model of a JavaScript runtime value, as far as the chat pipeline
inspects one: strings, numbers, booleans, `null`, `undefined`, objects
(finite field lists) and arrays. -/
inductive JSValue where
  | str (s : List Char)
  | num (n : Int)
  | bool (b : Bool)
  | jsNull
  | undefined
  | obj (fields : List (List Char × JSValue))
  | arr (elems : List JSValue)

/-- JavaScript truthiness: `null`, `undefined`, `false`, `0` and the empty
string are falsy; every object and array is truthy. -/
def truthy : JSValue → Bool
  | .str s => !s.isEmpty
  | .num n => n != 0
  | .bool b => b
  | .jsNull => false
  | .undefined => false
  | .obj _ => true
  | .arr _ => true

/-- Whether `typeof v === 'string'`. -/
def isStringVal : JSValue → Bool
  | .str _ => true
  | _ => false

/-- Whether `typeof v === 'object'` (true for objects, arrays and `null`). -/
def isObjectType : JSValue → Bool
  | .obj _ => true
  | .arr _ => true
  | .jsNull => true
  | _ => false

/-- The character list of a string value, `[]` otherwise. -/
def strOf : JSValue → List Char
  | .str s => s
  | _ => []

/-- Field lookup in an object's field list (first binding wins). -/
def lookupField : List (List Char × JSValue) → List Char → Option JSValue
  | [], _ => none
  | (k, v) :: rest, key => if k = key then some v else lookupField rest key

/-- Non-throwing property read `v[key]`, usable once `v` is known truthy:
objects yield the field or `undefined`; primitives (boxed) and arrays yield
`undefined` for the fields this pipeline reads. -/
def getFieldD : JSValue → List Char → JSValue
  | .obj fs, key => (lookupField fs key).getD .undefined
  | _, _ => .undefined

/-- Property read `v[key]` as executed by JavaScript: reading a property of
`null` or `undefined` throws a `TypeError` (modelled as `Except.error`). -/
def getProp : JSValue → List Char → Except Unit JSValue
  | .jsNull, _ => .error ()
  | .undefined, _ => .error ()
  | v, key => .ok (getFieldD v key)

/-- Property write `v[key] = w` in sloppy mode: updates (or adds) the field
on an object; on primitives the write is silently dropped.  Writing to
`null`/`undefined` would throw, but the pipeline only writes after a
successful read, so that case cannot arise and is modelled as a no-op. -/
def setProp : JSValue → List Char → JSValue → JSValue
  | .obj fs, key, w => .obj (setField fs key w)
  | v, _, _ => v
where
  /-- Replace the first binding of `key`, or append one. -/
  setField : List (List Char × JSValue) → List Char → JSValue → List (List Char × JSValue)
  | [], key, w => [(key, w)]
  | (k, v) :: rest, key, w =>
      if k = key then (k, w) :: rest else (k, v) :: setField rest key w

/-- Shorthand turning a Lean string literal into the `List Char` string model. -/
def cs (s : String) : List Char := s.toList

/-- JavaScript whitespace as recognised by `String.prototype.trim` and the
regex class `\s`: ASCII whitespace plus the Unicode space separators,
line separators and the BOM. -/
def isJsSpace (c : Char) : Bool :=
  c = ' ' || c = '\t' || c = '\n' || c.toNat = 11 || c.toNat = 12 || c = '\r' ||
  c.toNat = 160 || c.toNat = 5760 || (8192 ≤ c.toNat && c.toNat ≤ 8202) ||
  c.toNat = 8232 || c.toNat = 8233 || c.toNat = 8239 || c.toNat = 8287 ||
  c.toNat = 12288 || c.toNat = 65279

/-- The regex word class `\w`: ASCII letters, digits and underscore. -/
def isWordChar (c : Char) : Bool :=
  ('a' ≤ c && c ≤ 'z') || ('A' ≤ c && c ≤ 'Z') || ('0' ≤ c && c ≤ '9') || c = '_'

/-- Characters removed by `replace(/[<>]/g, '')`. -/
def isAngle (c : Char) : Bool := c = '<' || c = '>'

/-- Case-insensitive comparison against a lower/upper pair of letters. -/
def ciEq (c lo hi : Char) : Bool := c = lo || c = hi

/-- Length of the longest prefix of characters satisfying `p`. -/
def countWhile (p : Char → Bool) : List Char → Nat
  | [] => 0
  | c :: rest => if p c then countWhile p rest + 1 else 0

/-- Length of the match of `/javascript:/i` anchored at the head of the
list, if any (the pattern has fixed length 11). -/
def jsProtoMatchLen : List Char → Option Nat
  | c0 :: c1 :: c2 :: c3 :: c4 :: c5 :: c6 :: c7 :: c8 :: c9 :: c10 :: _ =>
      if ciEq c0 'j' 'J' && ciEq c1 'a' 'A' && ciEq c2 'v' 'V' && ciEq c3 'a' 'A' &&
         ciEq c4 's' 'S' && ciEq c5 'c' 'C' && ciEq c6 'r' 'R' && ciEq c7 'i' 'I' &&
         ciEq c8 'p' 'P' && ciEq c9 't' 'T' && c10 = ':' then some 11 else none
  | _ => none

/-- Length of the match of `/on\w+\s*=/i` anchored at the head of the list,
if any: `o`/`O`, `n`/`N`, a maximal non-empty run of word characters, a
maximal run of whitespace, then `=`.  (Backtracking the greedy `\w+` or
`\s*` can never produce a match the maximal runs miss, since a surrendered
word character is neither whitespace nor `=`, and a surrendered space is
not `=`.) -/
def handlerMatchLen : List Char → Option Nat
  | c0 :: c1 :: rest =>
      if ciEq c0 'o' 'O' && ciEq c1 'n' 'N' then
        let w := countWhile isWordChar rest
        if w = 0 then none
        else
          let s := countWhile isJsSpace (rest.drop w)
          match (rest.drop (w + s)).head? with
          | some '=' => some (2 + w + s + 1)
          | _ => none
      else none
  | _ => none

/-- Length of the match of the fence pattern `/```json\n?/` anchored at the
head of the list (the optional newline is consumed greedily). -/
def fenceJsonMatchLen : List Char → Option Nat
  | '`' :: '`' :: '`' :: 'j' :: 's' :: 'o' :: 'n' :: rest =>
      some (7 + (if rest.head? = some '\n' then 1 else 0))
  | _ => none

/-- Length of the match of the fence pattern `/```\n?/` anchored at the
head of the list. -/
def fenceMatchLen : List Char → Option Nat
  | '`' :: '`' :: '`' :: rest =>
      some (3 + (if rest.head? = some '\n' then 1 else 0))
  | _ => none

/-- One global-regex removal pass, `s.replace(re, '')`: scan left to right;
at each position either remove an anchored match and resume after it, or
emit the character.  `fuel` starts at the list length; every step consumes
at least one character, so the fuel never runs out on the scanned list. -/
def removeMatchesGo (matchLen : List Char → Option Nat) : Nat → List Char → List Char
  | 0, l => l
  | _, [] => []
  | fuel + 1, c :: rest =>
      match matchLen (c :: rest) with
      | some n => removeMatchesGo matchLen fuel ((c :: rest).drop n)
      | none => c :: removeMatchesGo matchLen fuel rest

/-- Global-regex removal `s.replace(re, '')` for an anchored matcher. -/
def removeMatches (matchLen : List Char → Option Nat) (l : List Char) : List Char :=
  removeMatchesGo matchLen l.length l

/-- `String.prototype.trim`. -/
def jsTrim (l : List Char) : List Char :=
  ((l.dropWhile isJsSpace).reverse.dropWhile isJsSpace).reverse

/-- The sanitizer's cleaning stage, before truncation: remove angle
brackets, strip `javascript:` protocols, strip inline event-handler
patterns, and trim — in the source's order. -/
def cleanChars (s : List Char) : List Char :=
  jsTrim (removeMatches handlerMatchLen
    (removeMatches jsProtoMatchLen (s.filter (fun c => !isAngle c))))

/-- `sanitizeInput` on an input already known to be a string: the cleaning
stage followed by `.substring(0, 1000)`. -/
def sanitizeChars (s : List Char) : List Char :=
  (cleanChars s).take 1000

/-- `sanitizeInput`: non-string input yields the empty string; string input
is cleaned and truncated to 1000 characters. -/
def sanitizeInput : JSValue → List Char
  | .str s => sanitizeChars s
  | _ => []

/-- A validated conversation message: role and sanitized content. -/
structure ChatMsg where
  role : List Char
  content : List Char
deriving DecidableEq

/-- `arr.slice(-n)`: the at-most-`n` most recent elements. -/
def takeLast (n : Nat) (l : List α) : List α := l.drop (l.length - n)

/-- The `ConversationMessage` shape check from `validateConversationHistory`:
truthy, of object type, with string `role` and `content`, and a role that is
exactly `user` or `assistant`. -/
def isValidMsg (v : JSValue) : Bool :=
  truthy v && isObjectType v && isStringVal (getFieldD v (cs "role")) &&
  isStringVal (getFieldD v (cs "content")) &&
  (strOf (getFieldD v (cs "role")) = cs "user" ||
   strOf (getFieldD v (cs "role")) = cs "assistant")

/-- The mapping stage of `validateConversationHistory`: keep the role,
sanitize the content. -/
def cleanMsg (v : JSValue) : ChatMsg :=
  { role := strOf (getFieldD v (cs "role"))
    content := sanitizeChars (strOf (getFieldD v (cs "content"))) }

/-- `validateConversationHistory`: non-arrays yield `[]`; arrays are
truncated to the last 10 raw entries, filtered by the shape check, and each
survivor's content sanitized. -/
def validateConversationHistory : JSValue → List ChatMsg
  | .arr l => ((takeLast 10 l).filter isValidMsg).map cleanMsg
  | _ => []

/-! ### SHA-256 and the cache fingerprint

`generateCacheKey` hashes its context string with Node's
`crypto.createHash('sha256')` over the UTF-8 bytes and renders the digest
as lowercase hex.  SHA-256 itself is implemented here in full (FIPS 180-4)
so that the fingerprint is a concrete 64-character value. -/

/-- Arithmetic modulo `2^32`. -/
def M32 : Nat := 4294967296

/-- 32-bit wrapping addition. -/
def add32 (a b : Nat) : Nat := (a + b) % M32

/-- 32-bit right rotation (arguments below `2^32`). -/
def rotr32 (n x : Nat) : Nat := ((x >>> n) ||| ((x % 2 ^ n) <<< (32 - n))) % M32

/-- Bitwise complement within 32 bits. -/
def not32 (x : Nat) : Nat := x ^^^ (M32 - 1)

/-- SHA-256 choose function. -/
def shaCh (x y z : Nat) : Nat := (x &&& y) ^^^ (not32 x &&& z)

/-- SHA-256 majority function. -/
def shaMaj (x y z : Nat) : Nat := (x &&& y) ^^^ (x &&& z) ^^^ (y &&& z)

/-- SHA-256 big sigma 0. -/
def bsig0 (x : Nat) : Nat := rotr32 2 x ^^^ rotr32 13 x ^^^ rotr32 22 x

/-- SHA-256 big sigma 1. -/
def bsig1 (x : Nat) : Nat := rotr32 6 x ^^^ rotr32 11 x ^^^ rotr32 25 x

/-- SHA-256 small sigma 0. -/
def ssig0 (x : Nat) : Nat := rotr32 7 x ^^^ rotr32 18 x ^^^ (x >>> 3)

/-- SHA-256 small sigma 1. -/
def ssig1 (x : Nat) : Nat := rotr32 17 x ^^^ rotr32 19 x ^^^ (x >>> 10)

/-- The 64 SHA-256 round constants. -/
def K256 : List Nat :=
  [1116352408, 1899447441, 3049323471, 3921009573, 961987163, 1508970993,
   2453635748, 2870763221, 3624381080, 310598401, 607225278, 1426881987,
   1925078388, 2162078206, 2614888103, 3248222580, 3835390401, 4022224774,
   264347078, 604807628, 770255983, 1249150122, 1555081692, 1996064986,
   2554220882, 2821834349, 2952996808, 3210313671, 3336571891, 3584528711,
   113926993, 338241895, 666307205, 773529912, 1294757372, 1396182291,
   1695183700, 1986661051, 2177026350, 2456956037, 2730485921, 2820302411,
   3259730800, 3345764771, 3516065817, 3600352804, 4094571909, 275423344,
   430227734, 506948616, 659060556, 883997877, 958139571, 1322822218,
   1537002063, 1747873779, 1955562222, 2024104815, 2227730452, 2361852424,
   2428436474, 2756734187, 3204031479, 3329325298]

/-- The SHA-256 working state: eight 32-bit words. -/
structure H8 where
  a : Nat
  b : Nat
  c : Nat
  d : Nat
  e : Nat
  f : Nat
  g : Nat
  h : Nat

/-- The SHA-256 initial hash value. -/
def H256init : H8 :=
  ⟨1779033703, 3144134277, 1013904242, 2773480762,
   1359893119, 2600822924, 528734635, 1541459225⟩

/-- One SHA-256 compression round for round constant `k` and schedule
word `w`. -/
def shaRound (k w : Nat) (s : H8) : H8 :=
  let t1 := add32 (add32 (add32 (add32 s.h (bsig1 s.e)) (shaCh s.e s.f s.g)) k) w
  let t2 := add32 (bsig0 s.a) (shaMaj s.a s.b s.c)
  ⟨add32 t1 t2, s.a, s.b, s.c, add32 s.d t1, s.e, s.f, s.g⟩

/-- Big-endian 32-bit words from a byte list (length a multiple of 4). -/
def bytesToWords : List Nat → List Nat
  | b0 :: b1 :: b2 :: b3 :: rest =>
      (((b0 * 256 + b1) * 256 + b2) * 256 + b3) :: bytesToWords rest
  | _ => []

/-- Extend the message schedule: `ws` holds the words produced so far, most
recent first; each step prepends
`sigma1 w_(i-2) + w_(i-7) + sigma0 w_(i-15) + w_(i-16)`. -/
def extendSchedule (ws : List Nat) : Nat → List Nat
  | 0 => ws
  | n + 1 =>
      extendSchedule
        (add32 (add32 (ssig1 (ws.getD 1 0)) (ws.getD 6 0))
          (add32 (ssig0 (ws.getD 14 0)) (ws.getD 15 0)) :: ws) n

/-- The 64-word message schedule of one 64-byte block. -/
def schedule (block : List Nat) : List Nat :=
  (extendSchedule (bytesToWords block).reverse 48).reverse

/-- Compress one 64-byte block into the running hash state. -/
def compressBlock (s : H8) (block : List Nat) : H8 :=
  let t := (K256.zip (schedule block)).foldl (fun st kw => shaRound kw.1 kw.2 st) s
  ⟨add32 s.a t.a, add32 s.b t.b, add32 s.c t.c, add32 s.d t.d,
   add32 s.e t.e, add32 s.f t.f, add32 s.g t.g, add32 s.h t.h⟩

/-- Big-endian bytes of `n`, `k` bytes wide. -/
def natToBytesBE (k n : Nat) : List Nat :=
  match k with
  | 0 => []
  | k + 1 => natToBytesBE k (n / 256) ++ [n % 256]

/-- SHA-256 padding: `0x80`, zeros to 56 mod 64, then the bit length as
eight big-endian bytes. -/
def shaPad (msg : List Nat) : List Nat :=
  msg ++ 128 :: List.replicate ((64 + 56 - (msg.length + 1) % 64) % 64) 0 ++
    natToBytesBE 8 (msg.length * 8)

/-- Split a byte list into 64-byte chunks; `fuel` starts at the list
length and every step consumes at least one element, so it never runs out
on the list it was sized for. -/
def chunks64Go : Nat → List Nat → List (List Nat)
  | _, [] => []
  | 0, _ => []
  | fuel + 1, c :: rest => (c :: rest).take 64 :: chunks64Go fuel ((c :: rest).drop 64)

/-- Split a byte list into 64-byte chunks. -/
def chunks64 (l : List Nat) : List (List Nat) :=
  chunks64Go l.length l

/-- The SHA-256 state after absorbing a byte-list message. -/
def sha256State (msg : List Nat) : H8 :=
  (chunks64 (shaPad msg)).foldl compressBlock H256init

/-- One lowercase hex digit. -/
def hexDigit (n : Nat) : Char :=
  if n < 10 then Char.ofNat (48 + n) else Char.ofNat (87 + n)

/-- Eight lowercase hex digits of a 32-bit word, most significant first. -/
def hexWord (w : Nat) : List Char :=
  [hexDigit (w / 268435456 % 16), hexDigit (w / 16777216 % 16),
   hexDigit (w / 1048576 % 16), hexDigit (w / 65536 % 16),
   hexDigit (w / 4096 % 16), hexDigit (w / 256 % 16),
   hexDigit (w / 16 % 16), hexDigit (w % 16)]

/-- The lowercase-hex SHA-256 digest of a byte-list message, as
`digest('hex')` renders it. -/
def sha256Hex (msg : List Nat) : List Char :=
  let s := sha256State msg
  hexWord s.a ++ hexWord s.b ++ hexWord s.c ++ hexWord s.d ++
  hexWord s.e ++ hexWord s.f ++ hexWord s.g ++ hexWord s.h

/-- UTF-8 encoding of one character, as `hash.update(string)` encodes its
input. -/
def utf8Bytes (c : Char) : List Nat :=
  let n := c.toNat
  if n < 128 then [n]
  else if n < 2048 then [192 + n / 64, 128 + n % 64]
  else if n < 65536 then [224 + n / 4096, 128 + n / 64 % 64, 128 + n % 64]
  else [240 + n / 262144, 128 + n / 4096 % 64, 128 + n / 64 % 64, 128 + n % 64]

/-- Lowercase-hex SHA-256 of a character string via its UTF-8 bytes. -/
def sha256HexOfChars (s : List Char) : List Char :=
  sha256Hex (s.flatMap utf8Bytes)

/-- The hash preimage built by `generateCacheKey`: the last three validated
history entries as `role:content` pairs joined by `|`, then `|user:` and
the current message. -/
def cacheKeyInput (message : List Char) (conversationHistory : List ChatMsg) : List Char :=
  let contextString :=
    joinSep (cs "|") ((takeLast 3 conversationHistory).map
      (fun m => m.role ++ cs ":" ++ m.content))
  contextString ++ cs "|user:" ++ message
where
  /-- `Array.prototype.join` with a separator. -/
  joinSep (sep : List Char) : List (List Char) → List Char
  | [] => []
  | [x] => x
  | x :: xs => x ++ sep ++ joinSep sep xs

/-- `generateCacheKey`: the SHA-256 hex digest of the context string. -/
def generateCacheKey (message : List Char) (conversationHistory : List ChatMsg) : List Char :=
  sha256HexOfChars (cacheKeyInput message conversationHistory)

/-! ### Response normalization

Both handler revisions strip markdown code fences, attempt `JSON.parse`,
and fall back to a plain object on parse failure.  `JSON.parse` is a
runtime builtin and is passed in as a function `List Char → Except Unit
JSValue` (`Except.error` models a thrown `SyntaxError`). -/

/-- Fence stripping applied to raw model text:
`text.replace(/```json\n?/g, '').replace(/```\n?/g, '').trim()`. -/
def stripFences (t : List Char) : List Char :=
  jsTrim (removeMatches fenceMatchLen (removeMatches fenceJsonMatchLen t))

/-- The apology message of the Gemini handler's post-loop fallback. -/
def geminiApologyMsg : List Char :=
  cs "I'm having trouble processing your request. Please try again!"

/-- The Gemini handler's fallback response object. -/
def geminiApologyObj : JSValue :=
  .obj [(cs "message", .str geminiApologyMsg), (cs "link", .jsNull)]

/-- The apology message substituted by the GPT revision when the parsed
response lacks a truthy `message` field. -/
def gptApologyMsg : List Char :=
  cs "I've gathered some information for you, but I'm having trouble formatting it. Please try rephrasing your question!"

/-- The in-loop text processing of the Gemini handler: strip fences, parse,
and on parse failure wrap the stripped text as `{message, link: null}`.
(The `!jsonResponse` apology fallback is applied by the caller.) -/
def geminiParseText (parse : List Char → Except Unit JSValue) (t : List Char) : JSValue :=
  let s := stripFences t
  match parse s with
  | .ok v => v
  | .error _ => .obj [(cs "message", .str s), (cs "link", .jsNull)]

/-- What the Gemini handler returns for a text response, including the
`if (!jsonResponse)` apology fallback. -/
def geminiNormalize (parse : List Char → Except Unit JSValue) (t : List Char) : JSValue :=
  let j := geminiParseText parse t
  if truthy j then j else geminiApologyObj

/-- The GPT revision's response normalization: strip fences, parse (falling
back to `{message: strippedText, link: null}` on parse failure), then run
`if (!jsonResponse.message) jsonResponse.message = apology`.  The property
read throws a `TypeError` when the parsed value is `null` or `undefined`
(modelled as `Except.error`), which propagates to the handler's catch
block. -/
def normalizeGpt (parse : List Char → Except Unit JSValue) (content : List Char) :
    Except Unit JSValue :=
  let g := stripFences content
  let j :=
    match parse g with
    | .ok v => v
    | .error _ => .obj [(cs "message", .str g), (cs "link", .jsNull)]
  match getProp j (cs "message") with
  | .error _ => .error ()
  | .ok m => .ok (if truthy m then j else setProp j (cs "message") (.str gptApologyMsg))

/-! ### The web-fetch tool and the bounded tool-call loop

The model service and the HTTP transport inside `fetchWebPage` are external
collaborators: the model is an oracle mapping the call index to its
response, and the network is an oracle mapping a URL to either extracted
page text or a failure message.  `JSON.stringify` (used only to serialize
tool results into the prompt) is likewise a parameter. -/

/-- Outcome of the external `axios.get` + cheerio extraction: the text of
the page body, or a network failure with an error message. -/
inductive FetchOutcome where
  | ok (bodyText : List Char)
  | netError (msg : List Char)

/-- The result object built by `fetchWebPage`: `{success: true, content,
url}` on success, `{success: false, error, url}` on failure. -/
structure WebResult where
  success : Bool
  content : Option (List Char)
  error : Option (List Char)
  url : List Char
deriving DecidableEq

/-- `fetchWebPage`: on success the extracted text is whitespace-collapsed,
trimmed and truncated to 5000 characters; any error is caught and returned
as a structured failure result — the function never throws. -/
def fetchWebPage (net : List Char → FetchOutcome) (url : List Char) : WebResult :=
  match net url with
  | .ok body =>
      { success := true
        content := some ((jsTrim (collapseWs body)).take 5000)
        error := none
        url := url }
  | .netError m =>
      { success := false, content := none, error := some m, url := url }
where
  /-- `replace(/\s+/g, ' ')`: collapse whitespace runs to single spaces. -/
  collapseWs : List Char → List Char
  | [] => []
  | c :: rest =>
      if isJsSpace c then
        ' ' :: collapseWs (rest.dropWhile isJsSpace)
      else c :: collapseWs rest
  termination_by l => l.length
  decreasing_by
    · have := (List.dropWhile_sublist isJsSpace (l := rest)).length_le
      simp only [List.length_cons]; omega
    · simp

/-- A tool invocation requested by the model: its name and its `args.url`. -/
structure ToolCall where
  name : List Char
  url : List Char
deriving DecidableEq

/-- One model response: either `generateContent` threw (with an error
message), or it returned a response whose `functionCalls()` is `undefined`
or a list, together with its `text()`. -/
inductive ModelResp where
  | threw (msg : List Char)
  | resp (functionCalls : Option (List ToolCall)) (text : List Char)
deriving DecidableEq

/-- The `{name, response}` record built for one executed tool call. -/
structure FuncResponse where
  name : List Char
  response : WebResult
deriving DecidableEq

/-- Execution of one requested call inside the loop: `fetchWebPage` calls
are executed, any other name maps to `null` (modelled as `none`). -/
def execCall (net : List Char → FetchOutcome) (call : ToolCall) : Option FuncResponse :=
  if call.name = cs "fetchWebPage" then
    some { name := call.name, response := fetchWebPage net call.url }
  else none

/-- How the loop leaves: with the text of a no-tool-call response, by the
guard `functionCallAttempts < maxFunctionCalls` failing, or by an exception
from the model call (rethrown out of the loop). -/
inductive LoopExit where
  | gotText (t : List Char)
  | guardFailed
  | raised (msg : List Char)
deriving DecidableEq

/-- Whether the loop exit is an exception. -/
def LoopExit.isRaised : LoopExit → Bool
  | .raised _ => true
  | _ => false

/-- Result of running the tool-call loop: the exit, the number of
iterations that processed tool calls, and the prompt passed to each model
invocation (in order). -/
structure LoopResult where
  exit : LoopExit
  toolIters : Nat
  promptTrace : List (List Char)

/-- The text appended before the serialized tool results. -/
def funcResultsHeader : List Char := cs "\n\nFUNCTION RESULTS:\n"

/-- The text appended after the serialized tool results. -/
def funcResultsFooter : List Char :=
  cs "\n\nNow provide your final response in JSON format based on this information:"

/-- The cap `maxFunctionCalls` on tool-call iterations. -/
def maxFunctionCalls : Nat := 3

/-- The body of `while (functionCallAttempts < maxFunctionCalls)`, with
`fuel = maxFunctionCalls - functionCallAttempts` so that the guard failing
is exactly `fuel = 0`.  A response with a non-empty `functionCalls` list
executes every call, appends the serialized results to the prompt and
continues; a text response breaks out; a throw propagates. -/
def chatLoopGo (oracle : Nat → ModelResp) (net : List Char → FetchOutcome)
    (stringify : List (Option FuncResponse) → List Char) (callIdx : Nat)
    (prompt : List Char) : Nat → LoopResult
  | 0 => { exit := .guardFailed, toolIters := 0, promptTrace := [] }
  | fuel + 1 =>
      match oracle callIdx with
      | .threw m => { exit := .raised m, toolIters := 0, promptTrace := [prompt] }
      | .resp fcs text =>
          match fcs with
          | some calls =>
              if calls.length > 0 then
                let functionResponses := calls.map (execCall net)
                let newPrompt :=
                  prompt ++ funcResultsHeader ++ stringify functionResponses ++
                    funcResultsFooter
                let r := chatLoopGo oracle net stringify (callIdx + 1) newPrompt fuel
                { exit := r.exit, toolIters := r.toolIters + 1
                  promptTrace := prompt :: r.promptTrace }
              else { exit := .gotText text, toolIters := 0, promptTrace := [prompt] }
          | none => { exit := .gotText text, toolIters := 0, promptTrace := [prompt] }

/-- The tool-call orchestration loop of the chat handler, started with
`functionCallAttempts = 0`. -/
def chatLoop (oracle : Nat → ModelResp) (net : List Char → FetchOutcome)
    (stringify : List (Option FuncResponse) → List Char) (prompt : List Char) :
    LoopResult :=
  chatLoopGo oracle net stringify 0 prompt maxFunctionCalls

/-- What the handler does after the loop: an exception propagates to the
catch block; a text exit is parsed and normalized; a guard-failure exit
leaves `jsonResponse` undefined, so the apology fallback is returned. -/
def chatFinish (parse : List Char → Except Unit JSValue) (exit : LoopExit) :
    Except (List Char) JSValue :=
  match exit with
  | .raised m => .error m
  | .gotText t => .ok (geminiNormalize parse t)
  | .guardFailed => .ok geminiApologyObj

/-! ### The response cache and the chat handlers

The cached-handler revision keeps a `node-cache` instance plus hit/miss/save
counters in module scope; both are modelled as explicit state threaded
through the handler.  TTL expiry and the periodic sweep are time-driven and
outside the per-request logic verified here. -/

/-- Shared per-process state: the response cache (an association list,
newest binding authoritative) and the cache statistics counters. -/
structure ServerState where
  cache : List (List Char × JSValue)
  hits : Nat
  misses : Nat
  saves : Nat

/-- `responseCache.get`. -/
def cacheGet : List (List Char × JSValue) → List Char → Option JSValue
  | [], _ => none
  | (k, v) :: rest, key => if k = key then some v else cacheGet rest key

/-- `responseCache.set`: overwrite an existing binding or append one. -/
def cacheSet : List (List Char × JSValue) → List Char → JSValue → List (List Char × JSValue)
  | [], key, v => [(key, v)]
  | (k, w) :: rest, key, v =>
      if k = key then (k, v) :: rest else (k, w) :: cacheSet rest key v

/-- An HTTP response: status code and JSON body. -/
structure HttpResp where
  status : Nat
  body : JSValue

/-- The 400 response for a missing or non-string message. -/
def resp400Valid : HttpResp :=
  ⟨400, .obj [(cs "error", .str (cs "Valid message is required"))]⟩

/-- The 400 response for a message that sanitizes to the empty string. -/
def resp400Empty : HttpResp :=
  ⟨400, .obj [(cs "error", .str (cs "Message cannot be empty"))]⟩

/-- The 429 response for an upstream rate-limit error. -/
def resp429 : HttpResp := ⟨429, .obj [(cs "error", .str (cs "API rate limit"))]⟩

/-- The generic 500 response of the catch block. -/
def resp500 : HttpResp :=
  ⟨500, .obj [(cs "error", .str (cs "Failed to generate response"))]⟩

/-- The 503 response for an exhausted OpenAI quota. -/
def resp503 : HttpResp :=
  ⟨503, .obj [(cs "error", .str (cs "Service unavailable"))]⟩

/-- The 500 response for a missing or invalid OpenAI key. -/
def resp500Config : HttpResp :=
  ⟨500, .obj [(cs "error", .str (cs "Configuration error"))]⟩

/-- Substring membership, `String.prototype.includes` (the empty needle is
found in every string). -/
def includesList (needle : List Char) : List Char → Bool
  | [] => needle.isEmpty
  | c :: rest => startsWith needle (c :: rest) || includesList needle rest
where
  /-- Whether the second list starts with the first. -/
  startsWith : List Char → List Char → Bool
  | [], _ => true
  | _ :: _, [] => false
  | a :: as, b :: bs => a = b && startsWith (a :: as).tail (b :: bs).tail

/-- The catch-block classification of the cached Gemini handler: a message
mentioning 429 maps to the rate-limit response, anything else to the
generic 500. -/
def classifyGeminiError (msg : List Char) : HttpResp :=
  if includesList (cs "429") msg then resp429 else resp500

/-- The prompt assembled by the Gemini handler: system prompt, the
validated history as labelled turns (when non-empty), and the current
message block. -/
def buildPrompt (sysPrompt : List Char) (validatedHistory : List ChatMsg)
    (sanitizedMessage : List Char) : List Char :=
  let base := sysPrompt ++ cs "\n\n"
  let withHistory :=
    if validatedHistory.length > 0 then
      base ++ cs "CONVERSATION HISTORY (Read this carefully before responding):\n" ++
        (validatedHistory.foldl
          (fun acc m =>
            acc ++ (if m.role = cs "user" then cs "User" else cs "Jeff") ++
              cs ": " ++ m.content ++ cs "\n") []) ++ cs "\n"
    else base
  withHistory ++ cs "CURRENT USER MESSAGE: " ++ sanitizedMessage ++
    cs "\n\nJeff (respond in JSON format, referencing conversation context if relevant):"

/-- The cached Gemini chat handler (the revision with the response cache):
validate the message, sanitize, validate history, derive the fingerprint,
probe the cache, and on a miss run the tool-call loop; a successful result
is cached with `saves` incremented, an exception is classified in the
catch block and nothing is stored. -/
def handleGemini (oracle : Nat → ModelResp) (net : List Char → FetchOutcome)
    (stringify : List (Option FuncResponse) → List Char)
    (parse : List Char → Except Unit JSValue) (sysPrompt : List Char)
    (messageVal historyVal : JSValue) (st : ServerState) : HttpResp × ServerState :=
  if !truthy messageVal || !isStringVal messageVal then (resp400Valid, st)
  else
    let sanitizedMessage := sanitizeInput messageVal
    if sanitizedMessage.isEmpty then (resp400Empty, st)
    else
      let validatedHistory := validateConversationHistory historyVal
      let cacheKey := generateCacheKey sanitizedMessage validatedHistory
      match cacheGet st.cache cacheKey with
      | some cached => (⟨200, cached⟩, { st with hits := st.hits + 1 })
      | none =>
          let st1 := { st with misses := st.misses + 1 }
          let prompt := buildPrompt sysPrompt validatedHistory sanitizedMessage
          let r := chatLoop oracle net stringify prompt
          match chatFinish parse r.exit with
          | .error m => (classifyGeminiError m, st1)
          | .ok jsonResponse =>
              (⟨200, jsonResponse⟩,
               { st1 with
                  cache := cacheSet st1.cache cacheKey jsonResponse
                  saves := st1.saves + 1 })

/-! ### The GPT revision of the handler -/

/-- The two marker substrings that flag a career-analysis request. -/
def careerMarker1 : List Char := cs "CAREER ANALYSIS REQUEST"

/-- The second career-analysis marker. -/
def careerMarker2 : List Char := cs "Career Path Explorer quiz"

/-- The `isCareerAnalysis` test on the sanitized message. -/
def isCareerAnalysisOf (sanitizedMessage : List Char) : Bool :=
  includesList careerMarker1 sanitizedMessage ||
  includesList careerMarker2 sanitizedMessage

/-- Outcome of the external `openai.chat.completions.create` call: the
response content, or a thrown error carrying a message, an optional `code`
and an optional HTTP `status`. -/
inductive GptOutcome where
  | ok (content : List Char)
  | threw (msg : List Char) (code : Option (List Char)) (status : Option Nat)

/-- The catch-block classification of the GPT handler. -/
def classifyGptError (msg : List Char) (code : Option (List Char))
    (status : Option Nat) : HttpResp :=
  if includesList (cs "429") msg then resp429
  else if code = some (cs "insufficient_quota") then resp503
  else if status = some 401 then resp500Config
  else resp500

/-- The message array sent to GPT: the system prompt, the last six
validated history entries (roles collapsed to user/assistant), and the
current user message. -/
def gptMessages (sysPrompt : List Char) (validatedHistory : List ChatMsg)
    (sanitizedMessage : List Char) : List ChatMsg :=
  ⟨cs "system", sysPrompt⟩ ::
    (takeLast 6 validatedHistory).map
      (fun m =>
        ⟨if m.role = cs "assistant" then cs "assistant" else cs "user", m.content⟩) ++
    [⟨cs "user", sanitizedMessage⟩]

/-- The GPT chat handler (the revision with the career-analysis bypass):
career-analysis requests skip the cache read, call GPT at temperature 1.2
(in tenths) instead of 0.7, and skip the cache write; every other request
uses the fingerprint cache as before.  The `misses` counter is incremented
on every request that reaches the model call.  A throw from the model call
or from the normalizer's `.message` access lands in the catch block. -/
def handleGpt (gpt : List ChatMsg → Nat → GptOutcome)
    (parse : List Char → Except Unit JSValue) (sysPrompt : List Char)
    (messageVal historyVal : JSValue) (st : ServerState) : HttpResp × ServerState :=
  if !truthy messageVal || !isStringVal messageVal then (resp400Valid, st)
  else
    let sanitizedMessage := sanitizeInput messageVal
    if sanitizedMessage.isEmpty then (resp400Empty, st)
    else
      let validatedHistory := validateConversationHistory historyVal
      let isCareerAnalysis := isCareerAnalysisOf sanitizedMessage
      let cacheKey := generateCacheKey sanitizedMessage validatedHistory
      match (if isCareerAnalysis then none else cacheGet st.cache cacheKey) with
      | some cached => (⟨200, cached⟩, { st with hits := st.hits + 1 })
      | none =>
          let st1 := { st with misses := st.misses + 1 }
          let messages := gptMessages sysPrompt validatedHistory sanitizedMessage
          let temperature10 := if isCareerAnalysis then 12 else 7
          match gpt messages temperature10 with
          | .threw m code status => (classifyGptError m code status, st1)
          | .ok content =>
              match normalizeGpt parse content with
              | .error _ => (resp500, st1)
              | .ok jsonResponse =>
                  if isCareerAnalysis then (⟨200, jsonResponse⟩, st1)
                  else
                    (⟨200, jsonResponse⟩,
                     { st1 with
                        cache := cacheSet st1.cache cacheKey jsonResponse
                        saves := st1.saves + 1 })

/-! ### Spec-side comparator and concrete inputs used by the theorems -/

/-- The claim's reading of HistoryValidator, following the spec's words
("returns exactly the cap-most-recent valid entries, oldest discarded
first"): filter the valid entries first, then keep the 10 most recent.
This is the spec-side definition compared against
`validateConversationHistory`, which truncates before filtering. -/
def specMostRecentValid10 : JSValue → List ChatMsg
  | .arr l => (takeLast 10 (l.filter isValidMsg)).map cleanMsg
  | _ => []

/-- A well-formed raw history entry. -/
def mkMsgVal (role content : String) : JSValue :=
  .obj [(cs "role", .str (cs role)), (cs "content", .str (cs content))]

/-- An 11-entry history: a valid oldest entry, an invalid second entry,
then nine valid entries.  The 10 most recent *valid* entries include the
oldest one, but the code's truncate-then-filter order discards it. -/
def histC3list : List JSValue :=
  mkMsgVal "user" "a" :: .num 0 :: List.replicate 9 (mkMsgVal "user" "b")

/-- First message of the fingerprint-stability counterexample: 1001
characters whose trailing `=` completes an `on\w+\s*=` event-handler match
spanning positions 1 through 999. -/
def c5msg1 : List Char := 'x' :: 'o' :: 'n' :: (List.replicate 996 'a' ++ ['=', 'y'])

/-- Second message of the fingerprint-stability counterexample: identical
to the first on all 1000 characters below the cap, differing only in the
character at index 1000. -/
def c5msg2 : List Char := 'x' :: 'o' :: 'n' :: (List.replicate 996 'a' ++ ['=', 'z'])

/-! ### Helper lemmas -/

/-- A removal pass never invents characters: its output is a sublist of
its input. -/
theorem removeMatchesGo_sublist (ml : List Char → Option Nat) :
    ∀ (fuel : Nat) (l : List Char), List.Sublist (removeMatchesGo ml fuel l) l := by
  intro fuel
  induction fuel with
  | zero =>
      intro l
      cases l with
      | nil => exact List.Sublist.refl []
      | cons c rest =>
          simp only [removeMatchesGo]
          exact List.Sublist.refl _
  | succ n ih =>
      intro l
      cases l with
      | nil => exact List.Sublist.refl []
      | cons c rest =>
          simp only [removeMatchesGo]
          cases hml : ml (c :: rest) with
          | none => exact (ih rest).cons₂ c
          | some k => exact (ih _).trans (List.drop_sublist k (c :: rest))

/-- Removal passes are sublists of their input. -/
theorem removeMatches_sublist (ml : List Char → Option Nat) (l : List Char) :
    List.Sublist (removeMatches ml l) l :=
  removeMatchesGo_sublist ml l.length l

/-- Trimming yields a sublist. -/
theorem jsTrim_sublist (l : List Char) : List.Sublist (jsTrim l) l := by
  have h1 : List.Sublist ((l.dropWhile isJsSpace).reverse.dropWhile isJsSpace)
      (l.dropWhile isJsSpace).reverse := List.dropWhile_sublist _
  have h2 := h1.reverse
  simp only [List.reverse_reverse] at h2
  exact h2.trans (List.dropWhile_sublist _)

/-- The sanitizer's output is a sublist of the angle-bracket filtering of
its input. -/
theorem sanitizeChars_sublist_filter (s : List Char) :
    List.Sublist (sanitizeChars s) (s.filter (fun c => !isAngle c)) :=
  (List.take_sublist _ _).trans
    ((jsTrim_sublist _).trans
      ((removeMatches_sublist _ _).trans (removeMatches_sublist _ _)))

/-- No character of a sanitized string is an angle bracket. -/
theorem sanitizeChars_no_angle {c : Char} {s : List Char}
    (hc : c ∈ sanitizeChars s) : isAngle c = false := by
  have hf : c ∈ s.filter (fun c => !isAngle c) :=
    (sanitizeChars_sublist_filter s).subset hc
  have := List.of_mem_filter hf
  simpa using this

/-- The tool-call loop performs at most `fuel` tool-processing iterations
and at most `fuel` model invocations. -/
theorem chatLoopGo_le (oracle : Nat → ModelResp) (net : List Char → FetchOutcome)
    (stringify : List (Option FuncResponse) → List Char) :
    ∀ (fuel callIdx : Nat) (prompt : List Char),
      (chatLoopGo oracle net stringify callIdx prompt fuel).toolIters ≤ fuel ∧
      (chatLoopGo oracle net stringify callIdx prompt fuel).promptTrace.length ≤ fuel := by
  intro fuel
  induction fuel with
  | zero => intro callIdx prompt; simp [chatLoopGo]
  | succ n ih =>
      intro callIdx prompt
      simp only [chatLoopGo]
      cases oracle callIdx with
      | threw m => simp
      | resp fcs text =>
          cases fcs with
          | none => simp
          | some calls =>
              by_cases hc : calls.length > 0
              · simp only [hc, if_pos]
                have := ih (callIdx + 1)
                  (prompt ++ funcResultsHeader ++ stringify (calls.map (execCall net)) ++
                    funcResultsFooter)
                constructor
                · simpa using Nat.succ_le_succ (this.1)
                · simpa using Nat.succ_le_succ (this.2)
              · simp [hc]

/-- Unfolding step of the loop for a response with no tool calls. -/
theorem chatLoopGo_text {oracle : Nat → ModelResp} {net : List Char → FetchOutcome}
    {stringify : List (Option FuncResponse) → List Char} {callIdx : Nat}
    {prompt : List Char} {fuel : Nat} {t : List Char}
    (h : oracle callIdx = .resp none t) :
    chatLoopGo oracle net stringify callIdx prompt (fuel + 1) =
      { exit := .gotText t, toolIters := 0, promptTrace := [prompt] } := by
  simp [chatLoopGo, h]

/-- Unfolding step of the loop for a response with a non-empty tool-call
list. -/
theorem chatLoopGo_tool {oracle : Nat → ModelResp} {net : List Char → FetchOutcome}
    {stringify : List (Option FuncResponse) → List Char} {callIdx : Nat}
    {prompt : List Char} {fuel : Nat} {calls : List ToolCall} {t0 : List Char}
    (h : oracle callIdx = .resp (some calls) t0) (hne : calls.length > 0) :
    chatLoopGo oracle net stringify callIdx prompt (fuel + 1) =
      (let r := chatLoopGo oracle net stringify (callIdx + 1)
        (prompt ++ funcResultsHeader ++ stringify (calls.map (execCall net)) ++
          funcResultsFooter) fuel
       { exit := r.exit, toolIters := r.toolIters + 1
         promptTrace := prompt :: r.promptTrace }) := by
  simp [chatLoopGo, h, hne]

/-- The hex digest always has 64 characters. -/
theorem sha256Hex_length (msg : List Nat) : (sha256Hex msg).length = 64 := by
  simp [sha256Hex, hexWord]

/-! ### Claim theorems -/

/-- Claim C8: `sanitizeInput` always returns a string of length at most
1000, and returns the empty string (rather than raising) on every
non-string input. -/
theorem sanitizeInput_bounded_total (v : JSValue) :
    (sanitizeInput v).length ≤ 1000 ∧
      (isStringVal v = false → sanitizeInput v = []) := by
  constructor
  · cases v <;> simp [sanitizeInput, sanitizeChars, List.length_take]
  · intro h
    cases v <;> simp_all [sanitizeInput, isStringVal]

/-- Witness for C8 at the concrete non-string input `5`. -/
theorem sanitizeInput_bounded_total_witness :
    (sanitizeInput (.num 5)).length ≤ 1000 ∧ sanitizeInput (.num 5) = [] :=
  ⟨(sanitizeInput_bounded_total (.num 5)).1,
   (sanitizeInput_bounded_total (.num 5)).2 rfl⟩

/-- Claim C9: no string returned by `sanitizeInput` contains an angle
bracket, and consequently no content field produced by
`validateConversationHistory` contains one. -/
theorem sanitize_no_angle_brackets :
    (∀ v : JSValue, '<' ∉ sanitizeInput v ∧ '>' ∉ sanitizeInput v) ∧
      ∀ (hv : JSValue) (m : ChatMsg), m ∈ validateConversationHistory hv →
        '<' ∉ m.content ∧ '>' ∉ m.content := by
  have key : ∀ s : List Char, '<' ∉ sanitizeChars s ∧ '>' ∉ sanitizeChars s := by
    intro s
    constructor
    · intro hmem
      have := sanitizeChars_no_angle hmem
      simp [isAngle] at this
    · intro hmem
      have := sanitizeChars_no_angle hmem
      simp [isAngle] at this
  constructor
  · intro v
    cases v with
    | str s => exact key s
    | num n => simp [sanitizeInput]
    | bool b => simp [sanitizeInput]
    | jsNull => simp [sanitizeInput]
    | undefined => simp [sanitizeInput]
    | obj fs => simp [sanitizeInput]
    | arr l => simp [sanitizeInput]
  · intro hv m hm
    cases hv with
    | arr l =>
        simp only [validateConversationHistory, List.mem_map] at hm
        obtain ⟨x, _, rfl⟩ := hm
        exact key _
    | str s => simp [validateConversationHistory] at hm
    | num n => simp [validateConversationHistory] at hm
    | bool b => simp [validateConversationHistory] at hm
    | jsNull => simp [validateConversationHistory] at hm
    | undefined => simp [validateConversationHistory] at hm
    | obj fs => simp [validateConversationHistory] at hm

/-- Witness for C9 at a concrete string and a concrete history entry. -/
theorem sanitize_no_angle_brackets_witness :
    ('<' ∉ sanitizeInput (.str (cs "a<b>c")) ∧ '>' ∉ sanitizeInput (.str (cs "a<b>c"))) ∧
      ('<' ∉ (ChatMsg.mk (cs "user") (cs "xy")).content ∧
       '>' ∉ (ChatMsg.mk (cs "user") (cs "xy")).content) :=
  ⟨sanitize_no_angle_brackets.1 (.str (cs "a<b>c")),
   sanitize_no_angle_brackets.2 (.arr [mkMsgVal "user" "x<y"])
     (ChatMsg.mk (cs "user") (cs "xy")) (by decide)⟩

/-- Counterexample to claim C3 as stated: on an 11-entry history whose
oldest entry is valid, whose second entry is invalid, and whose remaining
nine entries are valid, the validator returns only nine entries — not the
ten most recent valid ones — and the oldest valid entry is lost. -/
theorem validateHistory_not_ten_most_recent_valid :
    (histC3list.length > 10) ∧
      validateConversationHistory (.arr histC3list) ≠ specMostRecentValid10 (.arr histC3list) ∧
      cleanMsg (mkMsgVal "user" "a") ∈ specMostRecentValid10 (.arr histC3list) ∧
      cleanMsg (mkMsgVal "user" "a") ∉ validateConversationHistory (.arr histC3list) := by
  refine ⟨by decide, by decide, by decide, by decide⟩

/-- Claim C3 (amended): on histories longer than the cap the validator
keeps at most 10 entries, namely the valid entries among the 10 most
recent raw entries (truncate, then filter, then sanitize); every valid
entry among those last 10 raw entries is retained. -/
theorem validateHistory_truncate_then_filter (l : List JSValue)
    (hl : l.length > 10) :
    (validateConversationHistory (.arr l)).length ≤ 10 ∧
      validateConversationHistory (.arr l) =
        ((takeLast 10 l).filter isValidMsg).map cleanMsg ∧
      ∀ x ∈ takeLast 10 l, isValidMsg x = true →
        cleanMsg x ∈ validateConversationHistory (.arr l) := by
  refine ⟨?_, rfl, ?_⟩
  · have h1 : ((takeLast 10 l).filter isValidMsg).length ≤ (takeLast 10 l).length :=
      List.length_filter_le _ _
    have h2 : (takeLast 10 l).length ≤ 10 := by
      simp only [takeLast, List.length_drop]
      omega
    simp only [validateConversationHistory, List.length_map]
    omega
  · intro x hx hvx
    simp only [validateConversationHistory, List.mem_map]
    exact ⟨x, List.mem_filter.2 ⟨hx, hvx⟩, rfl⟩

/-- Witness for the amended C3 on the concrete 11-entry history. -/
theorem validateHistory_truncate_then_filter_witness :
    (validateConversationHistory (.arr histC3list)).length ≤ 10 ∧
      validateConversationHistory (.arr histC3list) =
        ((takeLast 10 histC3list).filter isValidMsg).map cleanMsg ∧
      ∀ x ∈ takeLast 10 histC3list, isValidMsg x = true →
        cleanMsg x ∈ validateConversationHistory (.arr histC3list) :=
  validateHistory_truncate_then_filter histC3list (by decide)

/-- Claim C4: the fingerprint is deterministic and depends only on the
message and the last three validated history entries — equal messages and
equal 3-tails give identical keys, of fixed length 64. -/
theorem generateCacheKey_depends_on_tail3 (m : List Char) (h₁ h₂ : List ChatMsg)
    (ht : takeLast 3 h₁ = takeLast 3 h₂) :
    generateCacheKey m h₁ = generateCacheKey m h₂ ∧
      (generateCacheKey m h₁).length = 64 := by
  constructor
  · have hin : cacheKeyInput m h₁ = cacheKeyInput m h₂ := by
      unfold cacheKeyInput
      rw [ht]
    unfold generateCacheKey
    rw [hin]
  · exact sha256Hex_length _

/-- Witness for C4: two histories that differ in their older entries but
share a 3-tail give the same key. -/
theorem generateCacheKey_depends_on_tail3_witness :
    generateCacheKey (cs "hi")
        [⟨cs "user", cs "old"⟩, ⟨cs "user", cs "p"⟩, ⟨cs "assistant", cs "q"⟩, ⟨cs "user", cs "r"⟩] =
      generateCacheKey (cs "hi")
        [⟨cs "assistant", cs "different"⟩, ⟨cs "user", cs "extra"⟩, ⟨cs "user", cs "p"⟩,
         ⟨cs "assistant", cs "q"⟩, ⟨cs "user", cs "r"⟩] ∧
      (generateCacheKey (cs "hi")
        [⟨cs "user", cs "old"⟩, ⟨cs "user", cs "p"⟩, ⟨cs "assistant", cs "q"⟩, ⟨cs "user", cs "r"⟩]).length = 64 :=
  generateCacheKey_depends_on_tail3 (cs "hi") _ _ (by decide)

set_option maxRecDepth 400000 in
/-- Counterexample to claim C5 as stated: two raw messages that agree on
all 1000 characters below the cap and differ only at index 1000, yet whose
sanitized forms — and hence fingerprints — differ, because sanitization
removes an event-handler match (completed below the cap) before
truncating. -/
theorem cacheKey_differs_beyond_cap_cex :
    c5msg1.take 1000 = c5msg2.take 1000 ∧ c5msg1 ≠ c5msg2 ∧
      generateCacheKey (sanitizeInput (.str c5msg1)) [] ≠
        generateCacheKey (sanitizeInput (.str c5msg2)) [] := by
  refine ⟨by decide, by decide, by decide⟩

/-- Claim C5 (amended): truncation to the cap happens after the removal
and trimming passes, so what holds is stability under the *cleaned*
prefix: two raw messages whose cleaned (pattern-removed, trimmed,
pre-truncation) forms agree on their first 1000 characters produce the
same fingerprint for the same validated history. -/
theorem cacheKey_stable_on_clean_prefix (m₁ m₂ : List Char) (h : List ChatMsg)
    (hc : (cleanChars m₁).take 1000 = (cleanChars m₂).take 1000) :
    generateCacheKey (sanitizeChars m₁) h = generateCacheKey (sanitizeChars m₂) h := by
  unfold sanitizeChars
  rw [hc]

/-- Witness for the amended C5 on two messages with equal cleaned prefix. -/
theorem cacheKey_stable_on_clean_prefix_witness :
    generateCacheKey (sanitizeChars (cs "ab ")) [] =
      generateCacheKey (sanitizeChars (cs "ab")) [] :=
  cacheKey_stable_on_clean_prefix (cs "ab ") (cs "ab") [] (by decide)

/-- Claim C1: for every sequence of model responses — including one that
requests tool calls on every invocation — the orchestration loop performs
at most 3 tool-processing iterations and at most 3 model invocations
before exiting. -/
theorem toolLoop_iterations_le_cap (oracle : Nat → ModelResp)
    (net : List Char → FetchOutcome)
    (stringify : List (Option FuncResponse) → List Char) (prompt : List Char) :
    (chatLoop oracle net stringify prompt).toolIters ≤ 3 ∧
      (chatLoop oracle net stringify prompt).promptTrace.length ≤ 3 :=
  chatLoopGo_le oracle net stringify maxFunctionCalls 0 prompt

/-- Claim C2 fails on the code: when the model text is exactly `null`,
`JSON.parse` succeeds with `null` and the subsequent `.message` read
throws a `TypeError`, so the normalizer raises instead of returning a
well-formed response.  The hypothesis pins the one fact used about the
external `JSON.parse`: it parses the four-character text `null` to the
JSON null value. -/
theorem normalizeGpt_raises_on_null_text (parse : List Char → Except Unit JSValue)
    (hp : parse (cs "null") = .ok .jsNull) :
    normalizeGpt parse (cs "null") = .error () := by
  have hs : stripFences (cs "null") = cs "null" := by decide
  simp [normalizeGpt, hs, hp, getProp]

/-- Witness for C2 with a concrete parser behaving like `JSON.parse` on
the failing input. -/
theorem normalizeGpt_raises_on_null_text_witness :
    normalizeGpt (fun s => if s = cs "null" then .ok .jsNull else .error ())
        (cs "null") = .error () :=
  normalizeGpt_raises_on_null_text _ (by simp)

/-- Claim C6: when the model's first response requests a `fetchWebPage`
call whose execution fails, the failure is captured as a structured
`{success: false, error, url}` result (not an exception), that result is
serialized into the prompt of the next model call, the loop continues, and
the request finishes on the normal text path with a normalized
`ChatResponse`, not on the handler's failure path. -/
theorem toolFailure_loop_continues (oracle : Nat → ModelResp)
    (net : List Char → FetchOutcome)
    (stringify : List (Option FuncResponse) → List Char)
    (parse : List Char → Except Unit JSValue)
    (u e t t0 prompt : List Char)
    (h0 : oracle 0 = .resp (some [⟨cs "fetchWebPage", u⟩]) t0)
    (hn : net u = .netError e)
    (h1 : oracle 1 = .resp none t) :
    (chatLoop oracle net stringify prompt).exit = .gotText t ∧
      (chatLoop oracle net stringify prompt).toolIters = 1 ∧
      (chatLoop oracle net stringify prompt).promptTrace =
        [prompt,
         prompt ++ funcResultsHeader ++
           stringify [some ⟨cs "fetchWebPage",
             { success := false, content := none, error := some e, url := u }⟩] ++
           funcResultsFooter] ∧
      chatFinish parse (chatLoop oracle net stringify prompt).exit =
        .ok (geminiNormalize parse t) := by
  have hcalls : ([(⟨cs "fetchWebPage", u⟩ : ToolCall)]).length > 0 := by simp
  have hexec : ([(⟨cs "fetchWebPage", u⟩ : ToolCall)].map (execCall net)) =
      [some ⟨cs "fetchWebPage",
        { success := false, content := none, error := some e, url := u }⟩] := by
    simp [execCall, fetchWebPage, hn]
  have key : chatLoop oracle net stringify prompt =
      { exit := .gotText t, toolIters := 1
        promptTrace :=
          [prompt,
           prompt ++ funcResultsHeader ++
             stringify [some ⟨cs "fetchWebPage",
               { success := false, content := none, error := some e, url := u }⟩] ++
             funcResultsFooter] } := by
    have e0 : chatLoop oracle net stringify prompt =
        chatLoopGo oracle net stringify 0 prompt (2 + 1) := rfl
    rw [e0, chatLoopGo_tool h0 hcalls]
    simp only [hexec, Nat.zero_add]
    rw [show (2 : Nat) = 1 + 1 from rfl, chatLoopGo_text h1]
  rw [key]
  exact ⟨rfl, rfl, rfl, rfl⟩

/-- Witness for C6: a model that first requests a failing fetch and then
answers with text. -/
theorem toolFailure_loop_continues_witness :
    (chatLoop
        (fun i => if i = 0 then .resp (some [⟨cs "fetchWebPage", cs "https://x.test"⟩]) []
          else .resp none (cs "ok"))
        (fun _ => .netError (cs "boom")) (fun _ => cs "S") []).exit = .gotText (cs "ok") ∧
      (chatLoop
        (fun i => if i = 0 then .resp (some [⟨cs "fetchWebPage", cs "https://x.test"⟩]) []
          else .resp none (cs "ok"))
        (fun _ => .netError (cs "boom")) (fun _ => cs "S") []).toolIters = 1 ∧
      (chatLoop
        (fun i => if i = 0 then .resp (some [⟨cs "fetchWebPage", cs "https://x.test"⟩]) []
          else .resp none (cs "ok"))
        (fun _ => .netError (cs "boom")) (fun _ => cs "S") []).promptTrace =
        [[],
         [] ++ funcResultsHeader ++ cs "S" ++ funcResultsFooter] ∧
      chatFinish (fun _ => .error ())
          (chatLoop
            (fun i => if i = 0 then .resp (some [⟨cs "fetchWebPage", cs "https://x.test"⟩]) []
              else .resp none (cs "ok"))
            (fun _ => .netError (cs "boom")) (fun _ => cs "S") []).exit =
        .ok (geminiNormalize (fun _ => .error ()) (cs "ok")) :=
  toolFailure_loop_continues _ _ _ _ (cs "https://x.test") (cs "boom") (cs "ok") [] []
    rfl rfl rfl

/-- Claim C7: a request whose sanitized message is a career-analysis
request bypasses the cache on both paths — the resulting state has the
same cache contents and the same saves counter, and the response does not
depend on the cache contents at all. -/
theorem careerAnalysis_bypasses_cache (gpt : List ChatMsg → Nat → GptOutcome)
    (parse : List Char → Except Unit JSValue) (sysPrompt : List Char)
    (messageVal historyVal : JSValue) (st : ServerState)
    (altCache : List (List Char × JSValue))
    (hcareer : isCareerAnalysisOf (sanitizeInput messageVal) = true) :
    (handleGpt gpt parse sysPrompt messageVal historyVal st).2.cache = st.cache ∧
      (handleGpt gpt parse sysPrompt messageVal historyVal st).2.saves = st.saves ∧
      (handleGpt gpt parse sysPrompt messageVal historyVal
          { st with cache := altCache }).1 =
        (handleGpt gpt parse sysPrompt messageVal historyVal st).1 := by
  have hcEmpty : isCareerAnalysisOf [] = false := by decide
  have hn1 : (!truthy messageVal || !isStringVal messageVal) = false := by
    cases messageVal with
    | str s =>
        cases s with
        | nil =>
            rw [show sanitizeInput (.str []) = [] from rfl, hcEmpty] at hcareer
            exact absurd hcareer (by simp)
        | cons c rest => simp [truthy, isStringVal]
    | num n =>
        rw [show sanitizeInput (.num n) = [] from rfl, hcEmpty] at hcareer
        exact absurd hcareer (by simp)
    | bool b =>
        rw [show sanitizeInput (.bool b) = [] from rfl, hcEmpty] at hcareer
        exact absurd hcareer (by simp)
    | jsNull =>
        rw [show sanitizeInput .jsNull = [] from rfl, hcEmpty] at hcareer
        exact absurd hcareer (by simp)
    | undefined =>
        rw [show sanitizeInput .undefined = [] from rfl, hcEmpty] at hcareer
        exact absurd hcareer (by simp)
    | obj fs =>
        rw [show sanitizeInput (.obj fs) = [] from rfl, hcEmpty] at hcareer
        exact absurd hcareer (by simp)
    | arr l =>
        rw [show sanitizeInput (.arr l) = [] from rfl, hcEmpty] at hcareer
        exact absurd hcareer (by simp)
  have hn2 : (sanitizeInput messageVal).isEmpty = false := by
    cases he : (sanitizeInput messageVal).isEmpty with
    | false => rfl
    | true =>
        rw [List.isEmpty_iff] at he
        rw [he, hcEmpty] at hcareer
        exact absurd hcareer (by simp)
  cases hg : gpt (gptMessages sysPrompt (validateConversationHistory historyVal)
      (sanitizeInput messageVal)) 12 with
  | threw m code status => simp [handleGpt, hn1, hn2, hcareer, hg]
  | ok content =>
      cases hnrm : normalizeGpt parse content with
      | error u => simp [handleGpt, hn1, hn2, hcareer, hg, hnrm]
      | ok j => simp [handleGpt, hn1, hn2, hcareer, hg, hnrm]

/-- Witness for C7 at the concrete career-analysis message, with two
different cache contents. -/
theorem careerAnalysis_bypasses_cache_witness :
    (handleGpt (fun _ _ => .ok (cs "hi")) (fun _ => .error ()) []
        (.str (cs "CAREER ANALYSIS REQUEST")) .jsNull ⟨[], 0, 0, 0⟩).2.cache = [] ∧
      (handleGpt (fun _ _ => .ok (cs "hi")) (fun _ => .error ()) []
        (.str (cs "CAREER ANALYSIS REQUEST")) .jsNull ⟨[], 0, 0, 0⟩).2.saves = 0 ∧
      (handleGpt (fun _ _ => .ok (cs "hi")) (fun _ => .error ()) []
        (.str (cs "CAREER ANALYSIS REQUEST")) .jsNull
        ⟨[(cs "k", .jsNull)], 0, 0, 0⟩).1 =
      (handleGpt (fun _ _ => .ok (cs "hi")) (fun _ => .error ()) []
        (.str (cs "CAREER ANALYSIS REQUEST")) .jsNull ⟨[], 0, 0, 0⟩).1 :=
  careerAnalysis_bypasses_cache _ _ [] _ .jsNull ⟨[], 0, 0, 0⟩ [(cs "k", .jsNull)]
    (by decide)

/-- Claim C10: when the model call throws — the tool-call loop exits by
exception, reaching the handler's catch block — the cached-handler's
response cache and saves counter are left exactly as they were; a failed
request never stores anything. -/
theorem modelThrow_leaves_cache_unchanged (oracle : Nat → ModelResp)
    (net : List Char → FetchOutcome)
    (stringify : List (Option FuncResponse) → List Char)
    (parse : List Char → Except Unit JSValue) (sysPrompt : List Char)
    (messageVal historyVal : JSValue) (st : ServerState)
    (hraise : (chatLoop oracle net stringify
        (buildPrompt sysPrompt (validateConversationHistory historyVal)
          (sanitizeInput messageVal))).exit.isRaised = true) :
    (handleGemini oracle net stringify parse sysPrompt messageVal historyVal st).2.cache =
        st.cache ∧
      (handleGemini oracle net stringify parse sysPrompt messageVal historyVal st).2.saves =
        st.saves := by
  unfold handleGemini
  by_cases h1 : !truthy messageVal || !isStringVal messageVal
  · simp [h1]
  · simp only [h1, Bool.false_eq_true, if_false]
    by_cases h2 : (sanitizeInput messageVal).isEmpty
    · simp [h2]
    · simp only [h2, Bool.false_eq_true, if_false]
      cases hget : cacheGet st.cache
          (generateCacheKey (sanitizeInput messageVal)
            (validateConversationHistory historyVal)) with
      | some cached => exact ⟨rfl, rfl⟩
      | none =>
          cases hex : (chatLoop oracle net stringify
              (buildPrompt sysPrompt (validateConversationHistory historyVal)
                (sanitizeInput messageVal))).exit with
          | gotText tt => rw [hex] at hraise; simp [LoopExit.isRaised] at hraise
          | guardFailed => rw [hex] at hraise; simp [LoopExit.isRaised] at hraise
          | raised m => simp [hex, chatFinish]

/-- Witness for C10 with a model oracle that throws immediately. -/
theorem modelThrow_leaves_cache_unchanged_witness :
    (handleGemini (fun _ => .threw (cs "boom")) (fun _ => .netError []) (fun _ => [])
        (fun _ => .error ()) [] (.str (cs "hi")) .jsNull ⟨[], 0, 0, 0⟩).2.cache = [] ∧
      (handleGemini (fun _ => .threw (cs "boom")) (fun _ => .netError []) (fun _ => [])
        (fun _ => .error ()) [] (.str (cs "hi")) .jsNull ⟨[], 0, 0, 0⟩).2.saves = 0 :=
  modelThrow_leaves_cache_unchanged _ _ _ _ [] _ .jsNull ⟨[], 0, 0, 0⟩ (by decide)

end Jeff
